import Mathlib

/-!
Verification of the casperfpga TAPCP transport, TFTP engine, CSL codec,
FPG descriptor parser and yellow-block peripherals, shallowly embedded
from the Rust sources.  Machine integers are modelled as `Nat`/`Int`
with explicit `% 2 ^ w` where wrap-around matters; fallible operations
return `Except`/`Option`; Rust panics (slice-range violations, `todo!()`)
are made explicit as dedicated result constructors.
-/

/-- Fuel-driven worker for `chunksOf`; with `fuel ≥ l.length` and
`0 < k` it computes exactly Rust's `slice::chunks(k)`. -/
def chunksOfAux (k : Nat) : Nat → List α → List (List α)
  | _, [] => []
  | 0, _ :: _ => []
  | fuel + 1, a :: rest =>
    (a :: rest).take k :: chunksOfAux k fuel ((a :: rest).drop k)

/-- Rust `slice::chunks`: splits a list into `k`-sized pieces, last one
possibly shorter; an empty slice yields no chunks.  `chunks(0)` panics in
Rust and is never used here. -/
def chunksOf (k : Nat) (l : List α) : List (List α) :=
  chunksOfAux k l.length l

/-- Rust `format!("{n:x}")` for unsigned integers: lowercase hexadecimal,
no zero padding (`Nat.toDigits 16` uses the digit characters 0-9a-f). -/
def hexStr (n : Nat) : String := ⟨Nat.toDigits 16 n⟩

/-- Modelled from the spec: the server answer to a
`/dev/<name>.<off>.<n>` download.  The device holds a byte array; a read
of `n` words beginning at word `off` returns those `4*n` bytes
(`§6`: "read/write of device memory in 4-byte words"). -/
def devServerRead (device : List Nat) (wordOff n : Nat) : List Nat :=
  (device.drop (4 * wordOff)).take (4 * n)

/-- Outcome of `Tapcp::read_n_bytes`, recording the single word-request
`(first_word, word_n)` issued and either the returned bytes or the Rust
panic raised by the final slice `bytes[start_idx..start_idx + n]`. -/
inductive ReadNResult
  | ok (firstWord wordN : Nat) (bytes : List Nat)
  | slicePanic (firstWord wordN : Nat)
  deriving DecidableEq, Repr

namespace Tapcp

/-- `Tapcp::read_n_bytes` (src/casperfpga/src/transport/tapcp.rs:198):
`first_word = offset / 4`, `last_word = (offset + n) / 4`,
`word_n = last_word - first_word`; one `read_device` request for
`word_n` words at `first_word`; then the slice
`bytes[offset % 4 .. offset % 4 + n]`, which panics when it reaches past
the end of the returned buffer. -/
def read_n_bytes (device : List Nat) (offset n : Nat) : ReadNResult :=
  let firstWord := offset / 4
  let lastWord := (offset + n) / 4
  let wordN := lastWord - firstWord
  let bytes := devServerRead device firstWord wordN
  let startIdx := offset % 4
  if startIdx + n ≤ bytes.length then
    .ok firstWord wordN ((bytes.drop startIdx).take n)
  else
    .slicePanic firstWord wordN

end Tapcp

/-- `tapcp::write_device` filename (src/tapcp/src/lib.rs:189):
`format!("/dev/{device}.{offset:x}")`. -/
def writeDeviceFilename (device : String) (wordOff : Nat) : String :=
  "/dev/" ++ device ++ "." ++ hexStr wordOff

/-- Outcome of `Tapcp::write_bytes`: either the TFTP upload issued
(pseudo-file name and payload) or the `todo!()` panic of the unaligned
branch. -/
inductive WriteBytesResult
  | upload (filename : String) (data : List Nat)
  | todoPanic
  deriving DecidableEq, Repr

namespace Tapcp

/-- `Tapcp::write_bytes` (src/casperfpga/src/transport/tapcp.rs:96):
when `offset % 4 == 0 && data.len() % 4 == 0` it calls
`tapcp::write_device(device, offset % 4, data, ..)` — note the word
offset passed is `offset % 4`, not `offset / 4`; otherwise `todo!()`. -/
def write_bytes (device : String) (offset : Nat) (data : List Nat) :
    WriteBytesResult :=
  if offset % 4 == 0 && data.length % 4 == 0 then
    .upload (writeDeviceFilename device (offset % 4)) data
  else
    .todoPanic

end Tapcp

/-- `tftp::write` data phase (src/tapcp/src/tftp.rs:351): after WRQ and
ACK(0), `data.chunks(512)` is enumerated and each chunk is sent as
`DATA(block = i + 1)`, each awaited by its matching ACK.  The sent DATA
blocks, in order, as (block number, payload) pairs. -/
def tftpWriteDataBlocks (data : List Nat) : List (Nat × List Nat) :=
  (chunksOf 512 data).enum.map (fun ic => (ic.1 + 1, ic.2))

/-- C1: the spec requires `read_n_bytes` to fetch `⌈(offset % 4 + n)/4⌉`
words and to return the `n` bytes at `offset`; in particular
`read_n_bytes("X", 2, 3)` on a device holding words
`[01020304, 05060708]` should request 2 words at word 0 and return
`[03, 04, 05]`.  The code instead computes
`word_n = (offset + n)/4 - offset/4 = 1`, requests a single word, and
panics on the slice `bytes[2..5]` of the 4-byte buffer — even though its
own comment on this very example says "we need to read both words". -/
theorem c1_read_n_bytes_truncates_and_panics :
    Tapcp.read_n_bytes [0x01, 0x02, 0x03, 0x04, 0x05, 0x06, 0x07, 0x08] 2 3 =
      .slicePanic 0 1 := by decide

/-- C2: the spec requires `write_bytes(device, offset, data)` in the
aligned case to upload against `/dev/<name>.<offset/4 in hex>` so the
bytes land at byte offset `offset`.  The code passes `offset % 4`
(always `0` in the aligned branch) as the word offset, so every aligned
write is uploaded to `/dev/<name>.0`, landing at the device start:
at `offset = 4` the upload goes to `/dev/X.0` while the spec requires
`/dev/X.1`. -/
theorem c2_write_bytes_ignores_offset :
    Tapcp.write_bytes "X" 4 [1, 2, 3, 4] = .upload "/dev/X.0" [1, 2, 3, 4] ∧
      writeDeviceFilename "X" (4 / 4) = "/dev/X.1" := by
  constructor <;> decide

set_option maxRecDepth 4000 in
/-- C4: the spec requires a payload whose length is a multiple of 512 to
be terminated by an extra empty DATA packet, a zero-length payload being
a single empty DATA.  `tftp::write` iterates `data.chunks(512)`, which
yields no chunk for an empty payload (so nothing is sent) and exactly
one full 512-byte block for a 512-byte payload (no empty terminator) —
contradicting RFC 1350, which the module header claims to implement. -/
theorem c4_no_final_empty_data_block :
    tftpWriteDataBlocks [] = [] ∧
      tftpWriteDataBlocks (List.replicate 512 0) =
        [(1, List.replicate 512 0)] := by
  constructor
  · rfl
  · rfl

/-- Direction of a software register (src/casperfpga/src/yellow_blocks/swreg.rs). -/
inductive SwDirection
  | ToProcessor
  | FromProcessor
  deriving DecidableEq, Repr

/-- Error type of the software-register yellow block. -/
inductive SwregError
  | ReadOnly
  | BadDirection
  | BadBitwidth
  | Overflow
  deriving DecidableEq, Repr

/-- `Fixed::to_be_bytes` for a 32-bit fixed-point value: the big-endian
bytes of the underlying 32-bit two's-complement bit pattern of the raw
numerator `k` (the stored value is `k / 2 ^ frac_bits`). -/
def beBytes32 (k : Int) : List Nat :=
  let u := (k % (2 ^ 32 : Int)).toNat
  [u / 2 ^ 24 % 256, u / 2 ^ 16 % 256, u / 2 ^ 8 % 256, u % 256]

/-- `FixedSoftwareRegister::write` (swreg.rs:141).  `val` is the raw
numerator of the fixed-point argument, whose numeric value is
`val / 2 ^ fracBits`.  The source checks `direction == ToProcessor`
first, then `val > 2_usize.pow(width) - 1 / 2_usize.pow(FRAC_NBITS)`
(precedence: `2^width - (1 / 2^frac)`, in usize arithmetic), and
otherwise writes `to_be_bytes`.  The fixed-vs-usize comparison compares
exact numeric values; cleared of the `2 ^ fracBits` denominator it is
`val > (2^width - 1/2^fracBits) * 2^fracBits`. -/
def FixedSoftwareRegister.write (direction : SwDirection) (width fracBits : Nat)
    (val : Int) : Except SwregError (List Nat) :=
  if direction = .ToProcessor then .error .ReadOnly
  else if val > ((2 ^ width - 1 / 2 ^ fracBits : Nat) : Int) * ((2 ^ fracBits : Nat) : Int) then
    .error .Overflow
  else .ok (beBytes32 val)

/-- C6: the spec requires `write(v)` to fail `Overflow` exactly when
`|v|` exceeds `2^width / 2^frac_bits`.  With `width = 2`, `frac_bits = 1`
and `v = 3` (raw numerator 6), the magnitude 3 exceeds `2^2 / 2^1 = 2`
(in numerator terms `|6| > 2^2`), so the spec demands `Overflow`; the
code's bound `2^width - 1/2^frac` evaluates to `2^2 - 0 = 4` by operator
precedence and integer division, `3 > 4` is false, and the value is
written.  (The code also compares `val`, not `|val|`, so arbitrarily
negative values are accepted as well.) -/
theorem c6_overflow_bound_precedence_bug :
    FixedSoftwareRegister.write .FromProcessor 2 1 6 = .ok [0, 0, 0, 6] ∧
      (6 : Int).natAbs > 2 ^ 2 := by
  exact ⟨rfl, by decide⟩

/-- Error type of the BRAM yellow block
(src/casperfpga/src/yellow_blocks/bram.rs). -/
inductive BramError
  | OutOfBounds
  | BadSize
  deriving DecidableEq, Repr

/-- A transport operation issued by a BRAM method: a word read or a word
write at an address within the named device. -/
inductive BramOp
  | read (addr : Nat)
  | write (addr : Nat) (bytes : List Nat)
  deriving DecidableEq, Repr

/-- `Bram::from_fpg` size computation (bram.rs:66): `1 << addr_width`. -/
def Bram.size_from_fpg (addrWidth : Nat) : Nat := 1 <<< addrWidth

/-- `Bram::read_addr` (bram.rs:83): bounds check `addr >= self.size`
fails `OutOfBounds`; otherwise a transport read at `addr` is issued. -/
def Bram.read_addr (size addr : Nat) : Except BramError BramOp :=
  if addr ≥ size then .error .OutOfBounds
  else .ok (.read addr)

/-- `Bram::write_addr` (bram.rs:133): issues the transport write at
`addr` unconditionally — the source contains no bounds check. -/
def Bram.write_addr (size addr : Nat) (bytes : List Nat) : Except BramError BramOp :=
  .ok (.write addr bytes)

/-- C7: the spec requires both `read_addr(i)` and `write_addr(i, v)` to
bounds-check `i < size`, failing `OutOfBounds` at `i = size` with no
transport operation.  With `size = 1 << 3 = 8`, `read_addr(8)` does fail
`OutOfBounds`, but `write_addr(8, v)` performs the transport write —
the source has no check on the write side. -/
theorem c7_write_addr_unchecked :
    Bram.read_addr (Bram.size_from_fpg 3) 8 = .error .OutOfBounds ∧
      Bram.write_addr (Bram.size_from_fpg 3) 8 [0, 0, 0, 0] =
        .ok (.write 8 [0, 0, 0, 0]) := by
  exact ⟨rfl, rfl⟩

/-- ADC16 demux mode (src/casperfpga/src/yellow_blocks/snapadc/controller.rs). -/
inductive DemuxMode
  | SingleChannel
  | DualChannel
  | QuadChannel
  deriving DecidableEq, Repr

/-- The `AdcControl` packed register at offset 4 of the ADC16
controller: probe bit, demux mode, reset, snap request, 8-bit bitslip
mask, 5 delay taps.  `Default` sets all fields to zero. -/
structure AdcControl where
  demuxWriteEnable : Bool := false
  demuxMode : DemuxMode := .SingleChannel
  reset : Bool := false
  snapRequest : Bool := false
  bitslip : List Bool := List.replicate 8 false
  delayTaps : List Bool := List.replicate 5 false
  deriving DecidableEq, Repr

/-- `AdcControl::default()`. -/
def AdcControl.default : AdcControl := {}

/-- Modelled from the spec: the gateware's response to a write of the
control word.  Per the source comment "If we /can't/ set it, we /do/
support demux", gateware that supports demultiplexing does not latch
the `demux_write_enable` bit (it reads back zero); gateware without
demux support stores the word as written. -/
def adcGatewareWrite (demuxSupported : Bool) (w : AdcControl) : AdcControl :=
  if demuxSupported then { w with demuxWriteEnable := false } else w

/-- `Adc16::supports_demux` (controller.rs:151): write
`AdcControl { demux_write_enable: true, ..Default::default() }`, read
the register back, and return `!demux_test.demux_write_enable`.  The
result is paired with the control register's state after the call; the
initial register state is irrelevant because the probe write overwrites
the whole word. -/
def Adc16.supports_demux (demuxSupported : Bool) (_ctl : AdcControl) :
    Bool × AdcControl :=
  let written : AdcControl := { AdcControl.default with demuxWriteEnable := true }
  let readBack := adcGatewareWrite demuxSupported written
  (!readBack.demuxWriteEnable, readBack)

/-- C10 counterexample: the claim says the probe bit is left clear
regardless of whether demultiplexing is supported.  On gateware that
does not support demux the written probe bit is latched and the call
performs no clearing write, so the bit is left set. -/
theorem c10_probe_bit_left_set_when_unsupported :
    (Adc16.supports_demux false AdcControl.default).2.demuxWriteEnable = true := by
  decide

/-- C10 (amended): `supports_demux` sets the probe bit, reads the
control register back, and returns true iff the bit reads back zero
(i.e. iff the gateware supports demultiplexing); after the call the
probe bit is clear iff the gateware supports demultiplexing — on a
non-supporting device it is left set. -/
theorem c10_supports_demux_characterization (demuxSupported : Bool) (ctl : AdcControl) :
    (Adc16.supports_demux demuxSupported ctl).1 = demuxSupported ∧
      (Adc16.supports_demux demuxSupported ctl).2.demuxWriteEnable = !demuxSupported := by
  cases demuxSupported <;> exact ⟨rfl, rfl⟩

/-- The two TAPCP-capable platforms (src/casperfpga/src/transport/tapcp.rs:26). -/
inductive Platform
  | SNAP
  | SNAP2
  deriving DecidableEq, Repr

/-- `tapcp::FLASH_SECTOR_SIZE` (src/tapcp/src/lib.rs:24). -/
def FLASH_SECTOR_SIZE : Nat := 0x10000

/-- `Platform::flash_location` (tapcp.rs:32). -/
def Platform.flash_location : Platform → Nat
  | .SNAP => 0x00800000
  | .SNAP2 => 0x00C00000

/-- `Platform::program_location` (tapcp.rs:39). -/
def Platform.program_location (p : Platform) : Nat :=
  p.flash_location + FLASH_SECTOR_SIZE

/-- The parts of an `FpgaDesign` that `program` consumes: the 16-byte
md5 fingerprint and the (decompressed) bitstream bytes. -/
structure FpgaDesignModel where
  md5 : List Nat
  bitstream : List Nat
  deriving DecidableEq, Repr

/-- `FpgaDesign::md5_string` (src/casper_utils/src/design_sources/mod.rs:44):
`self.md5().iter().map(|&v| format!("{v:x}")).collect()` — each byte
rendered as unpadded lowercase hex and concatenated. -/
def md5_string (md5 : List Nat) : String :=
  String.join (md5.map hexStr)

/-- A flash-affecting TAPCP operation issued during programming. -/
inductive FlashAction
  | write_flash (offset : Nat) (data : List Nat)
  | progdev (addr : Nat)
  deriving DecidableEq, Repr

/-- `tapcp::set_metadata` payload (src/tapcp/src/lib.rs:299): `?key\tvalue`
pairs concatenated (the HashMap iteration order of the two entries is
unspecified; the order passed here is the one this model receives),
followed by `?end`, padded with `'0'` (0x30) to a 1024-byte multiple. -/
def setMetadataBytes (entries : List (String × String)) : List Nat :=
  let dictStr := String.join (entries.map (fun kv => "?" ++ kv.1 ++ "\t" ++ kv.2)) ++ "?end"
  let bytes := dictStr.toUTF8.toList.map (fun b => b.toNat)
  if bytes.length % 1024 = 0 then bytes
  else bytes ++ List.replicate (1024 - bytes.length % 1024) 0x30

/-- `Tapcp::update_metadata` (tapcp.rs:240): one `write_flash` of the
serialized `{sector_size, md5}` map at `flash_location / 4`. -/
def Tapcp.update_metadata (design : FpgaDesignModel) (platform : Platform) :
    List FlashAction :=
  [.write_flash (platform.flash_location / 4)
      (setMetadataBytes
        [("sector_size", toString FLASH_SECTOR_SIZE), ("md5", md5_string design.md5)])]

/-- The flash actions of `Tapcp::program`'s programming path
(tapcp.rs:150-191): the bitstream in `FLASH_SECTOR_SIZE` chunks written
at `program_location + FLASH_SECTOR_SIZE * idx`, then the metadata
rewrite, then `progdev` (with the SNAP-only right shift by 8). -/
def Tapcp.program_path_actions (design : FpgaDesignModel) (platform : Platform) :
    List FlashAction :=
  ((chunksOf FLASH_SECTOR_SIZE design.bitstream).enum.map
      (fun ic => FlashAction.write_flash
        (platform.program_location + FLASH_SECTOR_SIZE * ic.1) ic.2))
    ++ Tapcp.update_metadata design platform
    ++ [.progdev (match platform with
        | .SNAP => platform.program_location >>> 8
        | .SNAP2 => platform.program_location)]

/-- `Tapcp::program` (tapcp.rs:128): read the flash metadata (reads
only); if the `md5` entry equals `design.md5_string()` and `force` is
false, return `Ok(())` immediately; otherwise run the programming path.
`metaMd5` is the metadata map's `md5` entry; the returned list is the
trace of flash-affecting operations performed (the early return
performs none and succeeds). -/
def Tapcp.program (metaMd5 : Option String) (design : FpgaDesignModel)
    (force : Bool) (platform : Platform) : List FlashAction :=
  match metaMd5 with
  | some hash =>
    if hash == md5_string design.md5 && !force then []
    else Tapcp.program_path_actions design platform
  | none => Tapcp.program_path_actions design platform

/-- C3: for every descriptor, `program(D, force = false)` with the flash
metadata's `md5` entry equal to the hex encoding of `D`'s md5 returns
success and performs zero flash writes, leaving the flash contents
unchanged: the fingerprint check short-circuits before any
`write_flash`, `set_metadata` or `progdev` call. -/
theorem c3_program_matching_md5_no_flash_writes
    (metaMd5 : Option String) (design : FpgaDesignModel) (force : Bool)
    (platform : Platform) (hmd5 : metaMd5 = some (md5_string design.md5))
    (hforce : force = false) :
    Tapcp.program metaMd5 design force platform = [] := by
  subst hmd5 hforce
  simp [Tapcp.program]

/-- C3 witness: a concrete 16-byte md5 and bitstream on platform SNAP. -/
theorem c3_program_matching_md5_witness :
    Tapcp.program (some (md5_string (List.range 16)))
      ⟨List.range 16, [0xDE, 0xAD, 0xBE, 0xEF]⟩ false .SNAP = [] :=
  c3_program_matching_md5_no_flash_writes _ _ _ _ rfl rfl

/-- TFTP ERROR packet codes (src/tapcp/src/tftp.rs:57). -/
inductive TftpErrorCode
  | NotDefined
  | NotFound
  | AccessViolation
  | Full
  | IllegalOp
  | UnknownID
  | FileExists
  | NoUser
  deriving DecidableEq, Repr

/-- `tapcp::tftp::Error` (tftp.rs:78). -/
inductive TftpError
  | ErrorResponse (code : TftpErrorCode) (msg : String)
  | BadMode (mode : String)
  | Incomplete
  | BadOpcode
  | BadErrorCode
  | BadBlock (block : Nat)
  | Timeout
  deriving DecidableEq, Repr

/-- The error `is_running` receives from `read_device` as an
`anyhow::Error`: either a `tapcp::tftp::Error` (the `downcast_ref`
succeeds) or some other error type (the downcast fails and the `None`
arm re-raises). -/
inductive TransportErr
  | tftp (e : TftpError)
  | nonTftp
  deriving DecidableEq, Repr

/-- `Tapcp::is_running` (src/casperfpga/src/transport/tapcp.rs:76) as a
function of the result of `read_device("sys_clkcounter", 0, 1, ..)`:
`Ok(_)` yields `true`; a downcast `ErrorResponse(NotFound, _)` yields
`false`; every other error — a different ERROR code, a different
`tftp::Error` variant, or a non-tftp error — is re-raised via
`bail!(e1)`. -/
def Tapcp.is_running : Except TransportErr (List Nat) → Except TransportErr Bool
  | .ok _ => .ok true
  | .error e =>
    match e with
    | .tftp (.ErrorResponse code _) =>
      match code with
      | .NotFound => .ok false
      | _ => .error e
    | _ => .error e

/-- `tftp_client::Error` as matched by the retry wrappers in
src/tapcp/src/lib.rs: `Protocol { code, msg }` carries a server ERROR
response; every other variant (Timeout among them) is passed through. -/
inductive TftpClientError
  | Protocol (code : TftpErrorCode) (msg : String)
  | Timeout
  | Other
  deriving DecidableEq, Repr

/-- Worker for `retrying_download`: `remaining = retries - local_retries`
attempts left, `attempt` numbering the next call to `download`. -/
def retryingDownloadAux (download : Nat → Except TftpClientError (List Nat)) :
    Nat → Nat → Except TftpClientError (List Nat)
  | 0, _ => .error .Timeout
  | remaining + 1, attempt =>
    match download attempt with
    | .ok v => .ok v
    | .error (.Protocol _ _) => retryingDownloadAux download remaining (attempt + 1)
    | .error e => .error e

/-- `retrying_download` (src/tapcp/src/lib.rs:45): retry the download
while the server answers with a protocol ERROR (the backoff sleeps are
not modelled); after `retries` protocol errors give up with
`Error::Tftp(Timeout)`; any non-protocol error returns immediately. -/
def retryingDownload (download : Nat → Except TftpClientError (List Nat))
    (retries : Nat) : Except TftpClientError (List Nat) :=
  retryingDownloadAux download retries 0

/-- A download that always draws a protocol ERROR exhausts the retry
budget and is transformed into `Timeout`, whatever the ERROR code. -/
theorem retryingDownloadAux_protocol_forever (code : TftpErrorCode) (msg : String)
    (download : Nat → Except TftpClientError (List Nat))
    (h : ∀ k, download k = .error (.Protocol code msg)) :
    ∀ remaining attempt, retryingDownloadAux download remaining attempt = .error .Timeout := by
  intro remaining
  induction remaining with
  | zero => intro attempt; rfl
  | succ r ih =>
    intro attempt
    simp only [retryingDownloadAux, h attempt]
    exact ih (attempt + 1)

/-- C5: `is_running` returns `false` exactly when the error reaching it
is a TFTP ERROR response with code NotFound; a successful read yields
`true`; every other failure propagates unchanged.  In particular the
retry layer turns a persistent NotFound protocol error into `Timeout`,
which `is_running` then propagates as an error rather than translating
to `false`. -/
theorem c5_is_running_notfound_to_false :
    (∀ v, Tapcp.is_running (.ok v) = .ok true) ∧
      (∀ r, Tapcp.is_running r = .ok false ↔
        ∃ msg, r = .error (.tftp (.ErrorResponse .NotFound msg))) ∧
      (∀ e, (∀ msg, e ≠ .tftp (.ErrorResponse .NotFound msg)) →
        Tapcp.is_running (.error e) = .error e) ∧
      (∀ retries msg download,
        (∀ k, download k = .error (.Protocol .NotFound msg)) →
        retryingDownload download retries = .error .Timeout) ∧
      Tapcp.is_running (.error (.tftp .Timeout)) = .error (.tftp .Timeout) := by
  refine ⟨fun v => rfl, fun r => ?_, fun e he => ?_, fun retries msg download h => ?_, rfl⟩
  · constructor
    · intro h
      match r with
      | .ok v => simp [Tapcp.is_running] at h
      | .error (.tftp (.ErrorResponse code msg)) =>
        cases code <;> simp_all [Tapcp.is_running]
      | .error (.tftp (.BadMode m)) => simp [Tapcp.is_running] at h
      | .error (.tftp .Incomplete) => simp [Tapcp.is_running] at h
      | .error (.tftp .BadOpcode) => simp [Tapcp.is_running] at h
      | .error (.tftp .BadErrorCode) => simp [Tapcp.is_running] at h
      | .error (.tftp (.BadBlock b)) => simp [Tapcp.is_running] at h
      | .error (.tftp .Timeout) => simp [Tapcp.is_running] at h
      | .error .nonTftp => simp [Tapcp.is_running] at h
    · rintro ⟨msg, rfl⟩
      rfl
  · match e with
    | .tftp (.ErrorResponse code msg) =>
      cases code <;> first
        | exact absurd rfl (he msg)
        | rfl
    | .tftp (.BadMode m) => rfl
    | .tftp .Incomplete => rfl
    | .tftp .BadOpcode => rfl
    | .tftp .BadErrorCode => rfl
    | .tftp (.BadBlock b) => rfl
    | .tftp .Timeout => rfl
    | .nonTftp => rfl
  · exact retryingDownloadAux_protocol_forever .NotFound msg download h retries 0

/-- C5 witness: the characterization applied at concrete inputs — a
non-NotFound error (`Incomplete`) propagates unchanged, and a download
answering `Protocol(NotFound)` forever under 3 retries is transformed
into `Timeout`. -/
theorem c5_is_running_witness :
    Tapcp.is_running (.error (.tftp .Incomplete)) = .error (.tftp .Incomplete) ∧
      retryingDownload (fun _ => .error (.Protocol .NotFound "no file")) 3 =
        .error .Timeout :=
  ⟨c5_is_running_notfound_to_false.2.2.1 (.tftp .Incomplete)
      (fun msg h => by simp at h),
    c5_is_running_notfound_to_false.2.2.2.1 3 "no file"
      (fun _ => .error (.Protocol .NotFound "no file")) (fun k => rfl)⟩

/-- A UTF-8 continuation byte test: `0x80 ≤ c ≤ 0xBF`. -/
def utf8Cont (c : Nat) : Bool := decide (0x80 ≤ c ∧ c ≤ 0xBF)

/-- Fuel-driven worker for `utf8Valid`; each step consumes at least one
byte, so `fuel ≥ l.length` makes the fuel-exhaustion arm unreachable. -/
def utf8ValidAux : Nat → List Nat → Bool
  | _, [] => true
  | 0, _ :: _ => false
  | fuel + 1, b :: rest =>
    if b < 0x80 then utf8ValidAux fuel rest
    else if b < 0xC2 then false
    else if b < 0xE0 then
      match rest with
      | c :: rest2 => utf8Cont c && utf8ValidAux fuel rest2
      | [] => false
    else if b < 0xF0 then
      match rest with
      | c :: d :: rest2 =>
        (if b == 0xE0 then decide (0xA0 ≤ c ∧ c ≤ 0xBF)
          else if b == 0xED then decide (0x80 ≤ c ∧ c ≤ 0x9F)
          else utf8Cont c)
          && utf8Cont d && utf8ValidAux fuel rest2
      | _ => false
    else if b < 0xF5 then
      match rest with
      | c :: d :: e :: rest2 =>
        (if b == 0xF0 then decide (0x90 ≤ c ∧ c ≤ 0xBF)
          else if b == 0xF4 then decide (0x80 ≤ c ∧ c ≤ 0x8F)
          else utf8Cont c)
          && utf8Cont d && utf8Cont e && utf8ValidAux fuel rest2
      | _ => false
    else false

/-- `std::str::from_utf8` succeeds: strict UTF-8 validity (shortest
forms only, surrogates and values above U+10FFFF rejected). -/
def utf8Valid (l : List Nat) : Bool := utf8ValidAux l.length l

/-- Rust `str::is_char_boundary`: `n == 0`, or `n == len`, or the byte
at `n` is not a continuation byte (`(b as i8) >= -64`).  Slicing
`&s[..n]` panics exactly when this is false (including `n > len`). -/
def isCharBoundary (l : List Nat) (n : Nat) : Bool :=
  if n == 0 then true
  else
    match l.get? n with
    | none => n == l.length
    | some b => decide (b < 0x80 ∨ 0xC0 ≤ b)

/-- `bytes.get(start..start+len)`: `Some` of the sub-slice when it lies
within bounds, `None` otherwise. -/
def listSlice (l : List Nat) (start len : Nat) : Option (List Nat) :=
  if start + len ≤ l.length then some ((l.drop start).take len) else none

/-- Outcome of the CSL decoder: the decoded entries, one of the two
error classes (`Error::Parse`, `Error::Utf8`), or a Rust panic raised
by the string slice `&prev[..header_n]`. -/
inductive CslResult
  | ok (entries : List (List Nat × List Nat))
  | parseErr
  | utf8Err
  | panicked
  deriving DecidableEq, Repr

/-- The `loop` of `csl::from_bytes` (src/casper_utils/src/csl.rs:36):
read `header_n` and `tail_n`; stop on the 0/0 sentinel; slice the
previous key's first `header_n` bytes (a Rust panic when `header_n`
is not a char boundary of the previous key or exceeds its length);
read the tail, validate UTF-8, read the payload, push, repeat.  Each
iteration advances `ptr` by at least 2, so fuel `bytes.length + 1`
makes the fuel-exhaustion arm unreachable. -/
def cslLoopAux (bytes : List Nat) (payloadN : Nat) :
    Nat → Nat → List (List Nat × List Nat) → CslResult
  | 0, _, _ => .parseErr
  | fuel + 1, ptr, acc =>
    match bytes.get? ptr, bytes.get? (ptr + 1) with
    | some headerN, some tailN =>
      if headerN == 0 && tailN == 0 then .ok acc
      else
        match acc.getLast? with
        | none => .parseErr
        | some prev =>
          if isCharBoundary prev.1 headerN then
            let head := prev.1.take headerN
            match listSlice bytes (ptr + 2) tailN with
            | none => .parseErr
            | some tailBytes =>
              if utf8Valid tailBytes then
                match listSlice bytes (ptr + 2 + tailN) payloadN with
                | none => .parseErr
                | some payload =>
                  cslLoopAux bytes payloadN fuel (ptr + 2 + tailN + payloadN)
                    (acc ++ [(head ++ tailBytes, payload)])
              else .utf8Err
          else .panicked
    | _, _ => .parseErr

/-- `csl::from_bytes` (src/casper_utils/src/csl.rs:17): first byte is
the fixed payload length, second the first key length; read the first
key (UTF-8 checked) and payload, then run the prefix-sharing loop.
Keys are represented by their UTF-8 bytes. -/
def Csl.from_bytes (bytes : List Nat) : CslResult :=
  match bytes.get? 0 with
  | none => .parseErr
  | some payloadN =>
    match bytes.get? 1 with
    | none => .parseErr
    | some keyN =>
      match listSlice bytes 2 keyN with
      | none => .parseErr
      | some keyBytes =>
        if utf8Valid keyBytes then
          match listSlice bytes (2 + keyN) payloadN with
          | none => .parseErr
          | some keyPl =>
            cslLoopAux bytes payloadN (bytes.length + 1) (2 + keyN + payloadN)
              [(keyBytes, keyPl)]
        else .utf8Err

/-- C9: the claim says CSL decoding is total — every input yields the
decoded list or a truncated-input / non-UTF-8 error, never a panic.
The input `[0, 1, 'a', 2, 1, 'b', 0, 0]` (payload length 0, first key
"a", then an entry with header-share 2 > the 1-byte previous key) makes
`&v.last().0[..header_n]` panic, contradicting both the claim and the
function's own doc ("Returns errors on invalid CSL").  The second
conjunct checks the module's own test vector decodes correctly,
validating this embedding. -/
theorem c9_from_bytes_panics_on_header_share :
    Csl.from_bytes [0, 1, 97, 2, 1, 98, 0, 0] = .panicked ∧
      Csl.from_bytes
        [1, 13, 97, 100, 99, 49, 54, 95, 119, 98, 95, 114, 97, 109, 49, 1, 12,
          1, 50, 2, 0, 9, 101, 113, 95, 48, 95, 103, 97, 105, 110, 3, 3, 6, 49,
          95, 103, 97, 105, 110, 4, 1, 12, 116, 104, 95, 48, 95, 98, 102, 114,
          97, 109, 101, 115, 5, 6, 4, 99, 111, 114, 101, 6, 0, 0] =
        .ok [([97, 100, 99, 49, 54, 95, 119, 98, 95, 114, 97, 109, 49], [1]),
          ([97, 100, 99, 49, 54, 95, 119, 98, 95, 114, 97, 109, 50], [2]),
          ([101, 113, 95, 48, 95, 103, 97, 105, 110], [3]),
          ([101, 113, 95, 49, 95, 103, 97, 105, 110], [4]),
          ([101, 116, 104, 95, 48, 95, 98, 102, 114, 97, 109, 101, 115], [5]),
          ([101, 116, 104, 95, 48, 95, 99, 111, 114, 101], [6])] := by
  constructor
  · rfl
  · rfl

/-- ASCII bytes of a string (used to spell out nom tags). -/
def strBytes (s : String) : List Nat := s.data.map Char.toNat

/-- nom `tag`: succeeds iff the input starts with `t`, returning the
rest. -/
def pTag (t input : List Nat) : Option (List Nat) :=
  if input.take t.length = t then some (input.drop t.length) else none

/-- nom `line_ending`: `"\n"` or `"\r\n"`. -/
def pLineEnding : List Nat → Option (List Nat)
  | 10 :: r => some r
  | 13 :: 10 :: r => some r
  | _ => none

/-- nom `is_space`: space or horizontal tab. -/
def isSpaceByte (b : Nat) : Bool := b == 32 || b == 9

/-- nom `space1`: one or more spaces/tabs. -/
def pSpace1 (input : List Nat) : Option (List Nat) :=
  let sp := input.takeWhile isSpaceByte
  if sp.isEmpty then none else some (input.drop sp.length)

/-- nom `take_till(is_space)`: the (possibly empty) run of non-space
bytes, and the rest. -/
def takeTillSpace (input : List Nat) : List Nat × List Nat :=
  (input.takeWhile (fun b => !isSpaceByte b),
    input.dropWhile (fun b => !isSpaceByte b))

/-- nom `not_line_ending`: the (possibly empty) run of bytes before a
`\r` or `\n`, and the rest. -/
def takeNotLineEnding (input : List Nat) : List Nat × List Nat :=
  (input.takeWhile (fun b => !(b == 13 || b == 10)),
    input.dropWhile (fun b => !(b == 13 || b == 10)))

/-- Value of one hexadecimal digit byte. -/
def hexDigitVal (b : Nat) : Option Nat :=
  if 48 ≤ b ∧ b ≤ 57 then some (b - 48)
  else if 97 ≤ b ∧ b ≤ 102 then some (b - 87)
  else if 65 ≤ b ∧ b ≤ 70 then some (b - 55)
  else none

/-- `hex_number` (src/casper_utils/src/design_sources/fpg.rs:96):
`preceded(tag("0x"), hex_digit1)` mapped through
`u32::from_str_radix(_, 16)`, which fails above `u32::MAX`. -/
def pHexNumber (input : List Nat) : Option (Nat × List Nat) := do
  let r ← pTag (strBytes "0x") input
  let ds := r.takeWhile (fun b => (hexDigitVal b).isSome)
  if ds.isEmpty then none
  else
    let v := ds.foldl (fun acc b => acc * 16 + (hexDigitVal b).getD 0) 0
    if v < 2 ^ 32 then some (v, r.drop ds.length) else none

/-- A register table entry: 32-bit address and size
(src/casper_utils/src/design_sources/mod.rs:10). -/
structure FpgRegister where
  addr : Nat
  size : Nat
  deriving DecidableEq, Repr

/-- `register` line (fpg.rs:105): `?register` WS name WS 0xADDR WS
0xSIZE line-ending; the name is UTF-8 checked.  Names are kept as their
UTF-8 bytes. -/
def pRegister (input : List Nat) :
    Option ((List Nat × FpgRegister) × List Nat) := do
  let r1 ← pTag (strBytes "?register") input
  let r2 ← pSpace1 r1
  let (nameB, r3) := takeTillSpace r2
  if utf8Valid nameB then
    let r4 ← pSpace1 r3
    let (addr, r5) ← pHexNumber r4
    let r6 ← pSpace1 r5
    let (size, r7) ← pHexNumber r6
    let r8 ← pLineEnding r7
    pure ((nameB, ⟨addr, size⟩), r8)
  else none

/-- A parsed `?meta` line: normalized device name, kind, key, value. -/
structure MetaLine where
  device : List Nat
  kind : List Nat
  key : List Nat
  value : List Nat
  deriving DecidableEq, Repr

/-- `device.replace('/', "_")` (fpg.rs:130): byte 0x2F never occurs in a
UTF-8 multi-byte sequence, so byte-wise replacement coincides with the
char-wise one. -/
def slashToUnderscore (l : List Nat) : List Nat :=
  l.map (fun b => if b == 47 then 95 else b)

/-- `meta` line (fpg.rs:115): `?meta` WS device WS kind WS key WS value
line-ending; each field UTF-8 checked; the device path's `/` separators
are rewritten to `_`. -/
def pMeta (input : List Nat) : Option (MetaLine × List Nat) := do
  let r1 ← pTag (strBytes "?meta") input
  let r2 ← pSpace1 r1
  let (devB, r3) := takeTillSpace r2
  if utf8Valid devB then
    let r4 ← pSpace1 r3
    let (kindB, r5) := takeTillSpace r4
    if utf8Valid kindB then
      let r6 ← pSpace1 r5
      let (keyB, r7) := takeTillSpace r6
      if utf8Valid keyB then
        let r8 ← pSpace1 r7
        let (valB, r9) := takeNotLineEnding r8
        let r10 ← pLineEnding r9
        if utf8Valid valB then
          pure (⟨slashToUnderscore devB, kindB, keyB, valB⟩, r10)
        else none
      else none
    else none
  else none

/-- Fuel-driven nom `many0`: apply `p` repeatedly until it fails.  The
length guard mirrors nom's protection against parsers that consume
nothing (both `pRegister` and `pMeta` always consume on success), and
makes `fuel = input.length` sufficient. -/
def many0Aux (p : List Nat → Option (α × List Nat)) :
    Nat → List Nat → List α × List Nat
  | 0, input => ([], input)
  | fuel + 1, input =>
    match p input with
    | some (a, rest) =>
      if rest.length < input.length then
        let (more, r) := many0Aux p fuel rest
        (a :: more, r)
      else ([], input)
    | none => ([], input)

/-- nom `many0`. -/
def many0 (p : List Nat → Option (α × List Nat)) (input : List Nat) :
    List α × List Nat :=
  many0Aux p input.length input

/-- The parsing half of `fpg_file` (fpg.rs:140): shebang, `?uploadbin`,
any number of register lines, any number of meta lines, `?quit`;
everything after the `?quit` line terminator is the bitstream. -/
def fpgParse (input : List Nat) :
    Option (List (List Nat × FpgRegister) × List MetaLine × List Nat) := do
  let r1 ← pTag (strBytes "#!/bin/kcpfpg") input
  let r1b ← pLineEnding r1
  let r2 ← pTag (strBytes "?uploadbin") r1b
  let r2b ← pLineEnding r2
  let (registers, r3) := many0 pRegister r2b
  let (metas, r4) := many0 pMeta r3
  let r5 ← pTag (strBytes "?quit") r4
  let bitstream ← pLineEnding r5
  pure (registers, metas, bitstream)

/-- Association-list lookup, modelling `HashMap::get`. -/
def alLookup : List (List Nat × β) → List Nat → Option β
  | [], _ => none
  | (k, v) :: rest, n => if k = n then some v else alLookup rest n

/-- Association-list insert-or-replace, modelling `HashMap::insert`. -/
def alInsert : List (List Nat × β) → List Nat → β → List (List Nat × β)
  | [], n, v => [(n, v)]
  | (k, w) :: rest, n, v =>
    if k = n then (k, v) :: rest else (k, w) :: alInsert rest n v

/-- Association-list removal, modelling `HashMap::remove`. -/
def alErase : List (List Nat × β) → List Nat → List (List Nat × β)
  | [], _ => []
  | (k, w) :: rest, n => if k = n then rest else (k, w) :: alErase rest n

/-- A `Device` (src/casper_utils/src/design_sources/mod.rs:18): kind,
optional register, metadata map. -/
structure FpgDevice where
  kind : List Nat
  register : Option FpgRegister
  metadata : List (List Nat × List Nat)
  deriving DecidableEq, Repr

/-- The registers `HashMap` collected from the parsed register lines
(fpg.rs:147): later lines with the same name overwrite earlier ones. -/
def buildRegMap (regs : List (List Nat × FpgRegister)) :
    List (List Nat × FpgRegister) :=
  regs.foldl (fun m nr => alInsert m nr.1 nr.2) []

/-- The meta walk of `fpg_file` (fpg.rs:154): the first sighting of a
device name creates the device, adopting (and removing) the matching
register if one exists; later sightings only add metadata. -/
def buildDevicesAux :
    List (List Nat × FpgDevice) → List (List Nat × FpgRegister) → List MetaLine →
      List (List Nat × FpgDevice)
  | devs, _, [] => devs
  | devs, regs, m :: rest =>
    match alLookup devs m.device with
    | some d =>
      buildDevicesAux
        (alInsert devs m.device { d with metadata := alInsert d.metadata m.key m.value })
        regs rest
    | none =>
      buildDevicesAux
        (devs ++ [(m.device, ⟨m.kind, alLookup regs m.device, [(m.key, m.value)]⟩)])
        (alErase regs m.device) rest

/-- The devices map produced by `fpg_file`'s meta walk. -/
def buildDevices (regs : List (List Nat × FpgRegister)) (metas : List MetaLine) :
    List (List Nat × FpgDevice) :=
  buildDevicesAux [] regs metas

/-- `fpg_file` (fpg.rs:140): parse, then aggregate the devices map. -/
def fpg_file (input : List Nat) :
    Option (List (List Nat × FpgDevice) × List Nat) :=
  (fpgParse input).map (fun rmb => (buildDevices (buildRegMap rmb.1) rmb.2.1, rmb.2.2))

/-- C8 counterexample: the descriptor
`#!/bin/kcpfpg\n?uploadbin\n?register\ttx_en\t0x0\t0x4\n?quit\n` is
accepted by the parser with one register line `tx_en` and no meta
lines, yet the resulting devices map is empty — the register appears as
the register field of zero devices, refuting "every register parsed
from a ?register line appears in exactly one device, including
registers never mentioned by any ?meta line". -/
theorem c8_register_without_meta_dropped :
    fpgParse [35, 33, 47, 98, 105, 110, 47, 107, 99, 112, 102, 112, 103, 10,
        63, 117, 112, 108, 111, 97, 100, 98, 105, 110, 10, 63, 114, 101, 103,
        105, 115, 116, 101, 114, 9, 116, 120, 95, 101, 110, 9, 48, 120, 48, 9,
        48, 120, 52, 10, 63, 113, 117, 105, 116, 10] =
      some ([([116, 120, 95, 101, 110], ⟨0, 4⟩)], [], []) ∧
      fpg_file [35, 33, 47, 98, 105, 110, 47, 107, 99, 112, 102, 112, 103, 10,
        63, 117, 112, 108, 111, 97, 100, 98, 105, 110, 10, 63, 114, 101, 103,
        105, 115, 116, 101, 114, 9, 116, 120, 95, 101, 110, 9, 48, 120, 48, 9,
        48, 120, 52, 10, 63, 113, 117, 105, 116, 10] = some ([], []) := by
  constructor
  · rfl
  · rfl

/-- A successful association-list lookup exhibits a member. -/
theorem alLookup_some_mem :
    ∀ {l : List (List Nat × β)} {n : List Nat} {v : β},
      alLookup l n = some v → (n, v) ∈ l := by
  intro l
  induction l with
  | nil => intro n v h; simp [alLookup] at h
  | cons hd tl ih =>
    intro n v h
    obtain ⟨k, w⟩ := hd
    rw [alLookup] at h
    split at h
    · next hkn =>
      injection h with h'
      subst hkn h'
      exact List.mem_cons_self _ _
    · exact List.mem_cons_of_mem _ (ih h)

/-- A failed lookup means the key is absent. -/
theorem alLookup_none_key_not_mem :
    ∀ {l : List (List Nat × β)} {n : List Nat},
      alLookup l n = none → n ∉ l.map Prod.fst := by
  intro l
  induction l with
  | nil => intro n _; simp
  | cons hd tl ih =>
    intro n h
    obtain ⟨k, w⟩ := hd
    rw [alLookup] at h
    split at h
    · simp at h
    · next hkn =>
      simp only [List.map_cons, List.mem_cons]
      rintro (rfl | hmem)
      · exact hkn rfl
      · exact ih h hmem

/-- Members of `alInsert l k v` are members of `l` or the new pair. -/
theorem alInsert_mem :
    ∀ {l : List (List Nat × β)} {k v : _} {n : List Nat} {x : β},
      (n, x) ∈ alInsert l k v → (n, x) ∈ l ∨ (n = k ∧ x = v) := by
  intro l
  induction l with
  | nil =>
    intro k v n x h
    simp [alInsert] at h
    exact Or.inr h
  | cons hd tl ih =>
    intro k v n x h
    obtain ⟨k', w⟩ := hd
    rw [alInsert] at h
    split at h
    · next hkk =>
      rcases List.mem_cons.mp h with heq | hmem
      · subst hkk
        rcases Prod.mk.injEq .. ▸ heq with ⟨rfl, rfl⟩
        exact Or.inr ⟨rfl, rfl⟩
      · exact Or.inl (List.mem_cons_of_mem _ hmem)
    · rcases List.mem_cons.mp h with heq | hmem
      · exact Or.inl (heq ▸ List.mem_cons_self _ _)
      · rcases ih hmem with h1 | h2
        · exact Or.inl (List.mem_cons_of_mem _ h1)
        · exact Or.inr h2

/-- `alInsert` never removes a key. -/
theorem alLookup_alInsert_none :
    ∀ {l : List (List Nat × β)} {k : List Nat} {v : β} {n : List Nat},
      alLookup (alInsert l k v) n = none → alLookup l n = none := by
  intro l
  induction l with
  | nil => intro k v n _; rfl
  | cons hd tl ih =>
    intro k v n h
    obtain ⟨k', w⟩ := hd
    rw [alInsert] at h
    split at h
    · next hkk =>
      rw [alLookup] at h ⊢
      split at h
      · simp at h
      · next hk'n => simp [hk'n]; exact h
    · rw [alLookup] at h ⊢
      split at h
      · simp at h
      · next hk'n => simp [hk'n]; exact ih h

/-- Erasing one key leaves lookups of other keys unchanged. -/
theorem alLookup_alErase_ne :
    ∀ {l : List (List Nat × β)} {k n : List Nat},
      k ≠ n → alLookup (alErase l k) n = alLookup l n := by
  intro l
  induction l with
  | nil => intro k n _; rfl
  | cons hd tl ih =>
    intro k n hkn
    obtain ⟨k', w⟩ := hd
    rw [alErase]
    split
    · next hk'k =>
      subst hk'k
      rw [alLookup]
      split
      · next h => exact absurd h hkn
      · rfl
    · rw [alLookup, alLookup]
      split
      · rfl
      · exact ih hkn

/-- Replacing the value of a present key leaves the key list unchanged. -/
theorem alInsert_keys_of_lookup :
    ∀ {l : List (List Nat × β)} {k : List Nat} {d v : β},
      alLookup l k = some d →
      (alInsert l k v).map Prod.fst = l.map Prod.fst := by
  intro l
  induction l with
  | nil => intro k d v h; simp [alLookup] at h
  | cons hd tl ih =>
    intro k d v h
    obtain ⟨k', w⟩ := hd
    rw [alLookup] at h
    rw [alInsert]
    split
    · simp
    · next hk'k =>
      split at h
      · next h' => exact absurd h' hk'k
      · simp [ih h]

/-- Key membership after `alInsert`. -/
theorem alInsert_key_mem :
    ∀ {l : List (List Nat × β)} {k : List Nat} {v : β} {n : List Nat},
      (∃ x, (n, x) ∈ alInsert l k v) ↔ (∃ x, (n, x) ∈ l) ∨ n = k := by
  intro l
  induction l with
  | nil =>
    intro k v n
    simp [alInsert, Prod.ext_iff]
  | cons hd tl ih =>
    intro k v n
    obtain ⟨k', w⟩ := hd
    rw [alInsert]
    split
    · next hk'k =>
      subst hk'k
      constructor
      · rintro ⟨x, hx⟩
        rcases List.mem_cons.mp hx with heq | hmem
        · rcases Prod.mk.injEq .. ▸ heq with ⟨rfl, _⟩
          exact Or.inr rfl
        · exact Or.inl ⟨x, List.mem_cons_of_mem _ hmem⟩
      · rintro (⟨x, hx⟩ | rfl)
        · rcases List.mem_cons.mp hx with heq | hmem
          · rcases Prod.mk.injEq .. ▸ heq with ⟨rfl, _⟩
            exact ⟨v, List.mem_cons_self _ _⟩
          · exact ⟨x, List.mem_cons_of_mem _ hmem⟩
        · exact ⟨v, List.mem_cons_self _ _⟩
    · constructor
      · rintro ⟨x, hx⟩
        rcases List.mem_cons.mp hx with heq | hmem
        · rcases Prod.mk.injEq .. ▸ heq with ⟨rfl, _⟩
          exact Or.inl ⟨w, List.mem_cons_self _ _⟩
        · rcases ih.mp ⟨x, hmem⟩ with ⟨y, hy⟩ | rfl
          · exact Or.inl ⟨y, List.mem_cons_of_mem _ hy⟩
          · exact Or.inr rfl
      · rintro (⟨x, hx⟩ | rfl)
        · rcases List.mem_cons.mp hx with heq | hmem
          · rcases Prod.mk.injEq .. ▸ heq with ⟨rfl, rfl⟩
            exact ⟨_, List.mem_cons_self _ _⟩
          · obtain ⟨y, hy⟩ := ih.mpr (Or.inl ⟨x, hmem⟩)
            exact ⟨y, List.mem_cons_of_mem _ hy⟩
        · obtain ⟨y, hy⟩ := ih.mpr (Or.inr rfl)
          exact ⟨y, List.mem_cons_of_mem _ hy⟩

/-- A failed lookup in `l ++ [(k, v)]` fails in `l` and misses `k`. -/
theorem alLookup_append_single_none :
    ∀ {l : List (List Nat × β)} {k : List Nat} {v : β} {n : List Nat},
      alLookup (l ++ [(k, v)]) n = none → alLookup l n = none ∧ k ≠ n := by
  intro l
  induction l with
  | nil =>
    intro k v n h
    rw [List.nil_append, alLookup] at h
    split at h
    · simp at h
    · next hkn => exact ⟨rfl, hkn⟩
  | cons hd tl ih =>
    intro k v n h
    obtain ⟨k', w⟩ := hd
    rw [List.cons_append, alLookup] at h
    split at h
    · simp at h
    · next hk'n =>
      obtain ⟨h1, h2⟩ := ih h
      rw [alLookup]
      split
      · next h' => exact absurd h' hk'n
      · exact ⟨h1, h2⟩

/-- State invariant of the meta walk: every device's register field is
the original register map's entry for the device's own name, provided
that holds of the incoming state and the working register map still
agrees with the original map on all names without a device yet. -/
theorem buildDevicesAux_register (regs₀ : List (List Nat × FpgRegister)) :
    ∀ (metas : List MetaLine) (devs : List (List Nat × FpgDevice))
      (regs : List (List Nat × FpgRegister)),
      (∀ n d, (n, d) ∈ devs → d.register = alLookup regs₀ n) →
      (∀ n, alLookup devs n = none → alLookup regs n = alLookup regs₀ n) →
      ∀ n d, (n, d) ∈ buildDevicesAux devs regs metas →
        d.register = alLookup regs₀ n := by
  intro metas
  induction metas with
  | nil =>
    intro devs regs h1 _ n d hmem
    rw [buildDevicesAux] at hmem
    exact h1 n d hmem
  | cons m rest ih =>
    intro devs regs h1 h2 n d hmem
    rw [buildDevicesAux] at hmem
    cases hlk : alLookup devs m.device with
    | some d0 =>
      rw [hlk] at hmem
      refine ih _ _ ?_ ?_ n d hmem
      · intro n' d' hd'
        rcases alInsert_mem hd' with hin | ⟨rfl, rfl⟩
        · exact h1 n' d' hin
        · exact h1 m.device d0 (alLookup_some_mem hlk)
      · intro n' hn'
        exact h2 n' (alLookup_alInsert_none hn')
    | none =>
      rw [hlk] at hmem
      refine ih _ _ ?_ ?_ n d hmem
      · intro n' d' hd'
        rcases List.mem_append.mp hd' with hin | hsing
        · exact h1 n' d' hin
        · rcases List.mem_singleton.mp hsing with heq
          rcases Prod.mk.injEq .. ▸ heq with ⟨rfl, rfl⟩
          exact h2 m.device hlk
      · intro n' hn'
        obtain ⟨hds, hne⟩ := alLookup_append_single_none hn'
        rw [alLookup_alErase_ne hne]
        exact h2 n' hds

/-- The meta walk's device names: the incoming ones plus the device
names of the processed meta lines. -/
theorem buildDevicesAux_keys :
    ∀ (metas : List MetaLine) (devs : List (List Nat × FpgDevice))
      (regs : List (List Nat × FpgRegister)) (n : List Nat),
      (∃ d, (n, d) ∈ buildDevicesAux devs regs metas) ↔
        (∃ d, (n, d) ∈ devs) ∨ ∃ m ∈ metas, m.device = n := by
  intro metas
  induction metas with
  | nil =>
    intro devs regs n
    rw [buildDevicesAux]
    simp
  | cons m rest ih =>
    intro devs regs n
    rw [buildDevicesAux]
    cases hlk : alLookup devs m.device with
    | some d0 =>
      rw [ih]
      rw [alInsert_key_mem]
      constructor
      · rintro ((⟨x, hx⟩ | rfl) | hrest)
        · exact Or.inl ⟨x, hx⟩
        · exact Or.inl ⟨d0, alLookup_some_mem hlk⟩
        · obtain ⟨m', hm', hdev⟩ := hrest
          exact Or.inr ⟨m', List.mem_cons_of_mem _ hm', hdev⟩
      · rintro (⟨x, hx⟩ | ⟨m', hm', hdev⟩)
        · exact Or.inl (Or.inl ⟨x, hx⟩)
        · rcases List.mem_cons.mp hm' with rfl | hm'rest
          · exact Or.inl (Or.inr hdev.symm)
          · exact Or.inr ⟨m', hm'rest, hdev⟩
    | none =>
      rw [ih]
      constructor
      · rintro (⟨x, hx⟩ | hrest)
        · rcases List.mem_append.mp hx with hin | hsing
          · exact Or.inl ⟨x, hin⟩
          · rcases List.mem_singleton.mp hsing with heq
            rcases Prod.mk.injEq .. ▸ heq with ⟨rfl, rfl⟩
            exact Or.inr ⟨m, List.mem_cons_self _ _, rfl⟩
        · obtain ⟨m', hm', hdev⟩ := hrest
          exact Or.inr ⟨m', List.mem_cons_of_mem _ hm', hdev⟩
      · rintro (⟨x, hx⟩ | ⟨m', hm', hdev⟩)
        · exact Or.inl ⟨x, List.mem_append_left _ hx⟩
        · rcases List.mem_cons.mp hm' with rfl | hm'rest
          · subst hdev
            exact Or.inl ⟨_, List.mem_append_right _ (List.mem_singleton.mpr rfl)⟩
          · exact Or.inr ⟨m', hm'rest, hdev⟩

/-- The meta walk never duplicates a device name. -/
theorem buildDevicesAux_nodup :
    ∀ (metas : List MetaLine) (devs : List (List Nat × FpgDevice))
      (regs : List (List Nat × FpgRegister)),
      (devs.map Prod.fst).Nodup →
      ((buildDevicesAux devs regs metas).map Prod.fst).Nodup := by
  intro metas
  induction metas with
  | nil =>
    intro devs regs h
    rw [buildDevicesAux]
    exact h
  | cons m rest ih =>
    intro devs regs h
    rw [buildDevicesAux]
    cases hlk : alLookup devs m.device with
    | some d0 =>
      apply ih
      rwa [alInsert_keys_of_lookup hlk]
    | none =>
      apply ih
      rw [List.map_append]
      rw [List.nodup_append]
      refine ⟨h, List.nodup_singleton _, ?_⟩
      intro x hx hx'
      rcases List.mem_singleton.mp hx' with rfl
      exact alLookup_none_key_not_mem hlk hx

/-- C8 (amended): every register whose name is mentioned by at least
one `?meta` line (after `/` → `_` normalization) appears as the
register field of exactly one device — the device of that name — while
a register whose name no `?meta` line mentions appears in no device.
Formally, over any register map and meta-line list: each device's
`register` field is the register map's entry for the device's own
name, a device named `n` exists iff some meta line mentions `n`, and
device names are never duplicated. -/
theorem c8_register_attachment (regs : List (List Nat × FpgRegister))
    (metas : List MetaLine) :
    (∀ n d, (n, d) ∈ buildDevices regs metas → d.register = alLookup regs n) ∧
      (∀ n, (∃ d, (n, d) ∈ buildDevices regs metas) ↔ ∃ m ∈ metas, m.device = n) ∧
      ((buildDevices regs metas).map Prod.fst).Nodup := by
  refine ⟨?_, ?_, ?_⟩
  · exact buildDevicesAux_register regs metas [] regs (by simp) (fun n _ => rfl)
  · intro n
    rw [buildDevices, buildDevicesAux_keys]
    simp
  · exact buildDevicesAux_nodup metas [] regs (by simp)

/-- C8 witness: the amended attachment theorem applied at a one-register
one-meta descriptor — the device `tx_en` adopts the `tx_en` register. -/
theorem c8_register_attachment_witness :
    FpgDevice.register ⟨[120, 112, 115], some ⟨0, 4⟩, [([107], [118])]⟩ =
      alLookup [([116, 120, 95, 101, 110], (⟨0, 4⟩ : FpgRegister))]
        [116, 120, 95, 101, 110] :=
  (c8_register_attachment [([116, 120, 95, 101, 110], ⟨0, 4⟩)]
      [⟨[116, 120, 95, 101, 110], [120, 112, 115], [107], [118]⟩]).1
    [116, 120, 95, 101, 110] ⟨[120, 112, 115], some ⟨0, 4⟩, [([107], [118])]⟩
    (by decide)
